import Mathlib

/-!
# Verification of the Antolin CSV loader (`scripts/load_antolin_db.py`)

Shallow embedding of the one-script repository: a batch importer that reads a
semicolon-delimited CSV of book records and inserts each row into the `antolin`
table, committing once at the end.

Modelling conventions:
* Python 2 byte strings (`str`) are `List Nat` of byte values (`Bytes`).
* Decoded unicode strings are `List Nat` of code points.
* Fallible Python operations become `Option`-returning functions.
* The control flow of `main` is modelled by which exceptions are raised inside
  the per-row `try`/`except` (caught, dropping into `pdb`) versus outside it
  (uncaught, aborting the run).
-/

namespace Antolin

/-- A Python 2 byte string (`str`): a list of byte values. -/
abbrev Bytes := List Nat

/-! ## UTF-8 decoding (`str.decode('utf-8')`)

A strict UTF-8 decoder over byte lists, returning the decoded code points, or
`none` on a malformed sequence (Python raises `UnicodeDecodeError`).  Python 2's
codec accepts surrogate code points, so the three-byte range is only restricted
against overlong forms. -/

/-- Continuation byte test: `0x80 ≤ b ≤ 0xBF`. -/
def isCont (b : Nat) : Bool := 0x80 ≤ b && b ≤ 0xBF

/-- Decode a UTF-8 byte sequence to its list of code points, or `none` if the
bytes are malformed (models `bytes.decode('utf-8')` raising
`UnicodeDecodeError`). -/
def decodeUtf8 : List Nat → Option (List Nat)
  | [] => some []
  | b :: bs =>
    if b < 0x80 then
      (decodeUtf8 bs).map (fun cs => b :: cs)
    else if 0xC2 ≤ b ∧ b ≤ 0xDF then
      match bs with
      | c1 :: rest =>
        if isCont c1 then
          (decodeUtf8 rest).map (fun cs => ((b - 0xC0) * 0x40 + (c1 - 0x80)) :: cs)
        else none
      | [] => none
    else if 0xE0 ≤ b ∧ b ≤ 0xEF then
      match bs with
      | c1 :: c2 :: rest =>
        if (if b = 0xE0 then 0xA0 ≤ c1 && c1 ≤ 0xBF else isCont c1) && isCont c2 then
          (decodeUtf8 rest).map
            (fun cs => ((b - 0xE0) * 0x1000 + (c1 - 0x80) * 0x40 + (c2 - 0x80)) :: cs)
        else none
      | _ => none
    else if 0xF0 ≤ b ∧ b ≤ 0xF4 then
      match bs with
      | c1 :: c2 :: c3 :: rest =>
        if (if b = 0xF0 then 0x90 ≤ c1 && c1 ≤ 0xBF
            else if b = 0xF4 then 0x80 ≤ c1 && c1 ≤ 0x8F
            else isCont c1) && isCont c2 && isCont c3 then
          (decodeUtf8 rest).map
            (fun cs => ((b - 0xF0) * 0x40000 + (c1 - 0x80) * 0x1000
                         + (c2 - 0x80) * 0x40 + (c3 - 0x80)) :: cs)
        else none
      | _ => none
    else none

/-! ## Python `int()` on a byte string -/

/-- ASCII digit test. -/
def isDigit (b : Nat) : Bool := 0x30 ≤ b && b ≤ 0x39

/-- Python whitespace stripped by `int()`. -/
def isPySpace (b : Nat) : Bool :=
  b = 0x20 || b = 0x09 || b = 0x0A || b = 0x0D || b = 0x0B || b = 0x0C

/-- Value of a nonempty digit string, most significant digit first. -/
def digitsVal (s : Bytes) : Nat :=
  s.foldl (fun acc b => acc * 10 + (b - 0x30)) 0

/-- `int()` on an already whitespace-stripped byte string: an optional sign
followed by one or more ASCII digits; anything else raises `ValueError`
(modelled as `none`). -/
def parsePyIntCore : Bytes → Option Int
  | [] => none
  | b :: rest =>
    if b = 0x2D then
      if rest ≠ [] ∧ rest.all isDigit then some (-(digitsVal rest : Int)) else none
    else if b = 0x2B then
      if rest ≠ [] ∧ rest.all isDigit then some ((digitsVal rest : Int)) else none
    else if (b :: rest).all isDigit then some ((digitsVal (b :: rest) : Int)) else none

/-- Python `int(s)` for a byte string `s`: strips surrounding whitespace, then
parses an optionally signed decimal integer. -/
def parsePyInt (s : Bytes) : Option Int :=
  parsePyIntCore (((s.dropWhile isPySpace).reverse.dropWhile isPySpace).reverse)

/-! ## `str.split('.')` -/

/-- Python `s.split(sep)` for a one-byte separator: splits on every occurrence,
keeping empty pieces (`''.split('.') == ['']`). -/
def splitOnByte (sep : Nat) : Bytes → List Bytes
  | [] => [[]]
  | b :: bs =>
    if b = sep then [] :: splitOnByte sep bs
    else
      match splitOnByte sep bs with
      | [] => [[b]]
      | g :: gs => (b :: g) :: gs

/-! ## `datetime.date` -/

/-- A calendar date as built by `datetime.date(year, month, day)`. -/
structure Date where
  year : Int
  month : Int
  day : Int
deriving DecidableEq, Repr

/-- Gregorian leap-year rule used by `datetime.date`. -/
def isLeap (y : Int) : Bool := y % 4 = 0 && (y % 100 ≠ 0 || y % 400 = 0)

/-- Number of days in a month, as validated by `datetime.date`. -/
def daysInMonth (y m : Int) : Int :=
  if m = 2 then (if isLeap y then 29 else 28)
  else if m = 4 ∨ m = 6 ∨ m = 9 ∨ m = 11 then 30
  else 31

/-- The argument ranges `datetime.date(year, month, day)` accepts
(`MINYEAR = 1`, `MAXYEAR = 9999`). -/
def dateOK (y m d : Int) : Bool :=
  1 ≤ y && y ≤ 9999 && 1 ≤ m && m ≤ 12 && 1 ≤ d && d ≤ daysInMonth y m

/-- `datetime.date(y, m, d)`: the date when the arguments are valid, `none`
when the constructor raises `ValueError`. -/
def mkDate (y m d : Int) : Option Date :=
  if dateOK y m d then some ⟨y, m, d⟩ else none

/-! ## The row transformer of `main`

`day, month, year = [int(p) for p in since.split('.')]` runs outside the
per-row `try`, so its `ValueError` (from `int()` or from unpacking a list whose
length is not 3) aborts the run.  The decodes of author/title/publisher, the
`datetime.date` construction, and the insert execution all happen inside the
`try`, whose `except Exception` drops into `pdb`. -/

/-- `[int(p) for p in s.split('.')]` unpacked into `day, month, year`:
`some (day, month, year)` when the string splits into exactly three pieces each
accepted by `int()`, otherwise `none` (a `ValueError` outside the `try`). -/
def parseDateParts (s : Bytes) : Option (Int × Int × Int) :=
  match (splitOnByte 0x2E s).mapM parsePyInt with
  | some [d, m, y] => some (d, m, y)
  | _ => none

/-- The eleven CSV fields of one data row, named as in the destructuring
assignment of `main`:
`(author, title, publisher, isbn10, since, grade, read, isbn13, isbn10f,
isbn13f, bookid) = row`. -/
structure RawRow where
  author : Bytes
  title : Bytes
  publisher : Bytes
  isbn10 : Bytes
  since : Bytes
  grade : Bytes
  read : Bytes
  isbn13 : Bytes
  isbn10f : Bytes
  isbn13f : Bytes
  bookid : Bytes
deriving DecidableEq, Repr

/-- The positional destructuring of a CSV row into the eleven variables, in
the order written in `main`; a row of any other width raises `ValueError`
(unpacking mismatch), outside the `try`. -/
def destructure : List Bytes → Option RawRow
  | [a, t, p, i10, s, g, rd, i13, i10f, i13f, bid] =>
      some ⟨a, t, p, i10, s, g, rd, i13, i10f, i13f, bid⟩
  | _ => none

/-- A parameter value passed to `cur.execute`: a decoded unicode string, a raw
byte string passed through, `None`, or a `datetime.date`. -/
inductive Value where
  | null
  | raw (s : Bytes)
  | text (cs : List Nat)
  | date (d : Date)
deriving DecidableEq, Repr

/-- The length normalization applied to each identifier field:
`if len(x) != n: x = None`. -/
def lenNorm (n : Nat) (s : Bytes) : Value :=
  if s.length ≠ n then Value.null else Value.raw s

/-- Errors that escape the per-row `try` and abort the run. -/
inductive PyError where
  | unpackError
  | valueError
  | indexError
  | usageExit
deriving DecidableEq, Repr

/-- Outcome of processing one data row in the loop body of `main`:
`ok params` when the insert executes with parameter tuple `params`; `pdb` when
an exception inside the `try` is caught by `except Exception` and drops into
the debugger; `abort e` when an exception outside the `try` propagates and
aborts the run. -/
inductive RowResult where
  | ok (params : List Value)
  | pdb
  | abort (e : PyError)
deriving DecidableEq, Repr

/-- One iteration of the row loop of `main`: destructure the row, parse
`since` (both outside the `try`), normalize the identifier lengths, then,
inside the `try`, decode the text fields, build the date, and execute the
insert with the parameter tuple in the order written in the source. -/
def processRow (row : List Bytes) : RowResult :=
  match destructure row with
  | none => RowResult.abort PyError.unpackError
  | some r =>
    match parseDateParts r.since with
    | none => RowResult.abort PyError.valueError
    | some (d, m, y) =>
      let isbn13v := lenNorm 13 r.isbn13
      let isbn13fv := lenNorm 17 r.isbn13f
      let isbn10v := lenNorm 10 r.isbn10
      let isbn10fv := lenNorm 13 r.isbn10f
      match decodeUtf8 r.author, decodeUtf8 r.title, decodeUtf8 r.publisher,
            mkDate y m d with
      | some da, some dt, some dp, some dte =>
          RowResult.ok [Value.text da, Value.text dt, Value.text dp,
            isbn10v, isbn10fv, isbn13v, isbn13fv, Value.raw r.bookid,
            Value.date dte, Value.raw r.grade, Value.raw r.read]
      | _, _, _, _ => RowResult.pdb

/-- Discriminator for the three row outcomes (0 = insert executed, 1 = caught
by the per-row handler, 2 = uncaught abort). -/
def kind : RowResult → Nat
  | RowResult.ok _ => 0
  | RowResult.pdb => 1
  | RowResult.abort _ => 2

/-- True exactly on the uncaught-abort outcome. -/
def isAbort : RowResult → Bool
  | RowResult.abort _ => true
  | _ => false

/-! ## The destination columns of `insert_sql`

`INSERT INTO antolin (author, title, publisher, isbn10, isbn10_formatted,
isbn13, isbn13_formatted, book_id, available_since, grade, num_read)
VALUES (%s, …)`. -/

/-- The destination column names of the `antolin` table. -/
inductive Col where
  | author
  | title
  | publisher
  | isbn10
  | isbn10_formatted
  | isbn13
  | isbn13_formatted
  | book_id
  | available_since
  | grade
  | num_read
deriving DecidableEq, Repr

/-- The column list of `insert_sql`, in the order it is written. -/
def insertColumns : List Col :=
  [Col.author, Col.title, Col.publisher, Col.isbn10, Col.isbn10_formatted,
   Col.isbn13, Col.isbn13_formatted, Col.book_id, Col.available_since,
   Col.grade, Col.num_read]

/-- Written from the spec's field-to-column mapping, for comparison with the
tuple built by `processRow`: the value destined for column `c`, given the
eleven fields in their CSV destructuring order together with the decoded text
fields `da`/`dt`/`dp` and the constructed date `dte`. -/
def columnParam (da dt dp : List Nat) (i10 g rd i13 i10f i13f bid : Bytes)
    (dte : Date) : Col → Value
  | Col.author => Value.text da
  | Col.title => Value.text dt
  | Col.publisher => Value.text dp
  | Col.isbn10 => lenNorm 10 i10
  | Col.isbn10_formatted => lenNorm 13 i10f
  | Col.isbn13 => lenNorm 13 i13
  | Col.isbn13_formatted => lenNorm 17 i13f
  | Col.book_id => Value.raw bid
  | Col.available_since => Value.date dte
  | Col.grade => Value.raw g
  | Col.num_read => Value.raw rd

/-! ## The row loop of `main` as an event trace

```
for idx, row in enumerate(reader):
    if idx % 100 == 0: sys.stdout.write('.')
    ...process and insert...
conn.commit()
```
-/

/-- Observable events of a run: a progress dot on stdout, an executed insert,
a stop in the debugger, the final commit. -/
inductive Event where
  | dot
  | insert (params : List Value)
  | pdbStop
  | commit
deriving DecidableEq, Repr

/-- The event trace of the row loop starting at row index `idx`: a dot every
100 rows, one insert per successfully processed row, a debugger stop for a
row whose exception is caught by the per-row handler; an uncaught exception
truncates the trace (no commit), and reaching the end of the stream emits the
single commit. -/
def runRows : Nat → List (List Bytes) → List Event
  | _, [] => [Event.commit]
  | idx, r :: rs =>
    (if idx % 100 = 0 then [Event.dot] else []) ++
      match processRow r with
      | RowResult.ok ps => Event.insert ps :: runRows (idx + 1) rs
      | RowResult.pdb => Event.pdbStop :: runRows (idx + 1) rs
      | RowResult.abort _ => []

/-- Number of progress dots written for `n` processed data rows: one per
0-indexed row whose index is divisible by 100 (`if idx % 100 == 0`). -/
def progressDots (n : Nat) : Nat :=
  (List.range n).countP (fun i => i % 100 = 0)

/-! ## The destination table across a run

The table is append-only from this tool's view: each `ok` row contributes one
inserted tuple, in order, and a completed run commits them all at once. -/

/-- The parameter tuples inserted by one pass over `rows` (rows whose
processing does not reach `cur.execute`, or whose insert fails, contribute
nothing). -/
def insertedRows (rows : List (List Bytes)) : List (List Value) :=
  rows.filterMap (fun r =>
    match processRow r with
    | RowResult.ok ps => some ps
    | _ => none)

/-- Destination table state after one completed, committed run of the loader
over `rows`, starting from table contents `table`: the plain `INSERT`
appends every transformed tuple, with no uniqueness check. -/
def runLoader (table : List (List Value)) (rows : List (List Bytes)) :
    List (List Value) :=
  table ++ insertedRows rows

/-! ## Configuration resolution

```
parser = optparse.OptionParser(...)
opts, args = parser.parse_args(argv)
if not opts.password:
    opts.password = getpass.getpass()
conn = pymysql.connect(...)
csv_io = open(args[0], 'r')
```
-/

/-- The recognized option values of `parser` plus positionals; `unknown`
stands for any argument `optparse` rejects with a usage error. -/
inductive Arg where
  | optDatabase (v : Bytes)
  | optUsername (v : Bytes)
  | optPassword (v : Bytes)
  | positional (v : Bytes)
  | unknown
deriving DecidableEq, Repr

/-- The option record produced by `parser.parse_args`. -/
structure Opts where
  database : Bytes
  username : Bytes
  password : Option Bytes
deriving DecidableEq, Repr

/-- Defaults declared by `parser.add_option`: database `'spils'`, username
`'gssb'`, password absent. -/
def defaultOpts : Opts :=
  ⟨[0x73, 0x70, 0x69, 0x6C, 0x73], [0x67, 0x73, 0x73, 0x62], none⟩

/-- `parser.parse_args` over the recognized argument shapes: options update
the option record, positionals accumulate in order, and an unrecognized
option terminates with a usage error (`none`).  `optparse` imposes no
constraint on the number of positionals. -/
def parseArgs : List Arg → Opts → List Bytes → Option (Opts × List Bytes)
  | [], o, pos => some (o, pos.reverse)
  | Arg.optDatabase v :: rest, o, pos => parseArgs rest { o with database := v } pos
  | Arg.optUsername v :: rest, o, pos => parseArgs rest { o with username := v } pos
  | Arg.optPassword v :: rest, o, pos => parseArgs rest { o with password := some v } pos
  | Arg.positional v :: rest, o, pos => parseArgs rest o (v :: pos)
  | Arg.unknown :: _, _, _ => none

/-- Python truthiness of `opts.password`: `not opts.password` is true for the
default `None` and for an empty string. -/
def passwordFalsy : Option Bytes → Bool
  | none => true
  | some s => s.isEmpty

/-- The password `main` hands to `pymysql.connect`: the prompted value
whenever the option is falsy, the command-line value otherwise. -/
def resolvePassword (opt : Option Bytes) (prompted : Bytes) : Bytes :=
  if passwordFalsy opt then prompted else opt.getD []

/-- Startup events of `main`, before the row loop. -/
inductive StepEvent where
  | promptPassword
  | connect
  | openFile (path : Bytes)
deriving DecidableEq, Repr

/-- The startup phase of `main` after argument parsing: prompt for the
password when the option is falsy, open the database connection, then open
`args[0]` — which raises an uncaught `IndexError` when no positional argument
was given. -/
def mainPrefix (password : Option Bytes) (args : List Bytes) :
    List StepEvent × Option PyError :=
  let es := (if passwordFalsy password then [StepEvent.promptPassword] else [])
              ++ [StepEvent.connect]
  match args with
  | [] => (es, some PyError.indexError)
  | a :: _ => (es ++ [StepEvent.openFile a], none)

/-- `main` from `parse_args` through opening the input file: a usage error
from `optparse` stops everything at once; otherwise the startup phase runs
on the parsed options and positionals. -/
def mainStartup (argv : List Arg) : List StepEvent × Option PyError :=
  match parseArgs argv defaultOpts [] with
  | none => ([], some PyError.usageExit)
  | some (opts, args) => mainPrefix opts.password args

/-! ## Sample data for concrete evaluations -/

/-- The bytes of `"5.3.2004"`. -/
def sampleSince : Bytes := [0x35, 0x2E, 0x33, 0x2E, 0x32, 0x30, 0x30, 0x34]

/-- The bytes of `"32.1.2004"`: three integer components, invalid day. -/
def badDaySince : Bytes := [0x33, 0x32, 0x2E, 0x31, 0x2E, 0x32, 0x30, 0x30, 0x34]

/-- The bytes of `"2004-03-05"`: no periods at all. -/
def dashedSince : Bytes :=
  [0x32, 0x30, 0x30, 0x34, 0x2D, 0x30, 0x33, 0x2D, 0x30, 0x35]

/-- A well-formed 10-byte isbn10 value, `"1234567890"`. -/
def goodIsbn10 : Bytes := [49, 50, 51, 52, 53, 54, 55, 56, 57, 48]

/-- A well-formed 13-byte isbn13 value. -/
def goodIsbn13 : Bytes := [49, 50, 51, 52, 53, 54, 55, 56, 57, 48, 49, 50, 51]

/-- A well-formed 13-byte formatted isbn10 value. -/
def goodIsbn10f : Bytes := [49, 50, 51, 52, 53, 54, 55, 56, 57, 48, 49, 50, 49]

/-- A well-formed 17-byte formatted isbn13 value. -/
def goodIsbn13f : Bytes :=
  [57, 55, 56, 45, 49, 45, 50, 51, 52, 45, 53, 54, 55, 56, 57, 45, 48]

/-- A fully well-formed sample row (all identifier lengths correct, valid
date, ASCII text fields). -/
def sampleRow : List Bytes :=
  [[65], [66], [67], goodIsbn10, sampleSince, [51], [55], goodIsbn13,
   goodIsbn10f, goodIsbn13f, [66, 75, 49]]

/-- `sampleRow` with the author field replaced by the lone byte `0xFF`,
which no UTF-8 decoder accepts. -/
def badUtf8Row : List Bytes :=
  [[0xFF], [66], [67], goodIsbn10, sampleSince, [51], [55], goodIsbn13,
   goodIsbn10f, goodIsbn13f, [66, 75, 49]]

/-- `sampleRow` with `available_since` replaced by `"32.1.2004"`. -/
def badDayRow : List Bytes :=
  [[65], [66], [67], goodIsbn10, badDaySince, [51], [55], goodIsbn13,
   goodIsbn10f, goodIsbn13f, [66, 75, 49]]

/-! ## Theorems -/

/-- C3 (counterexample): with no positional argument at all, `main` does not
fail fast with a usage error: it prompts for the password and opens the
database connection first, and then dies of an uncaught `IndexError` at
`args[0]` — the recorded error is not the usage exit. -/
theorem missing_arg_not_failfast_cex :
    mainStartup [] =
      ([StepEvent.promptPassword, StepEvent.connect], some PyError.indexError) ∧
    StepEvent.connect ∈ (mainStartup []).1 ∧
    (mainStartup []).2 ≠ some PyError.usageExit := by
  decide

/-- C3 (amended): when the positional input-file argument is absent,
`optparse` raises no usage error; the run first prompts for the password
(whenever the password option is falsy) and opens the database connection,
and only then aborts with an uncaught `IndexError` on accessing the missing
argument. -/
theorem missing_arg_aborts_after_connect (pw : Option Bytes) :
    (mainPrefix pw []).2 = some PyError.indexError ∧
    (mainPrefix pw []).1 =
      (if passwordFalsy pw then [StepEvent.promptPassword] else [])
        ++ [StepEvent.connect] := by
  constructor <;> simp [mainPrefix]

/-- C5 (counterexample): one data row already emits one progress dot (at
0-indexed row 0), but `floor(1/100) = 0`. -/
theorem progress_dots_not_floor_cex : progressDots 1 ≠ 1 / 100 := by
  decide

/-- C5 (amended): with a dot emitted at every 0-indexed row divisible by 100,
the number of dots for `n` processed data rows is `⌈n/100⌉ = (n + 99) / 100`,
not `⌊n/100⌋`. -/
theorem progress_dots_ceil (n : Nat) : progressDots n = (n + 99) / 100 := by
  induction n with
  | zero => rfl
  | succ k ih =>
    rw [progressDots, List.range_succ, List.countP_append, ← progressDots]
    rw [ih]
    by_cases hk : k % 100 = 0 <;> simp [List.countP_cons, hk] <;> omega

/-- C9: the loader is not idempotent: one completed run appends every
transformed row to the table, and a second identical run appends them again,
so whenever the input produces at least one insert the table after two runs
differs from the table after one. -/
theorem loader_not_idempotent (t : List (List Value)) (rows : List (List Bytes))
    (h : insertedRows rows ≠ []) :
    runLoader t rows = t ++ insertedRows rows ∧
    runLoader (runLoader t rows) rows =
      t ++ (insertedRows rows ++ insertedRows rows) ∧
    runLoader (runLoader t rows) rows ≠ runLoader t rows := by
  refine ⟨rfl, by simp [runLoader], fun heq => ?_⟩
  have hlen := congrArg List.length heq
  simp [runLoader] at hlen
  exact h hlen

/-- C9 (witness): concrete instance at an empty table and the one-row input
`[sampleRow]`. -/
theorem loader_not_idempotent_witness :
    insertedRows [sampleRow] ≠ [] ∧
    runLoader (runLoader [] [sampleRow]) [sampleRow] ≠ runLoader [] [sampleRow] :=
  ⟨by decide, (loader_not_idempotent [] [sampleRow] (by decide)).2.2⟩

/-- C10: the password prompt fires exactly when the `-p` value is Python-falsy
— absent or the empty string — so `-p ''` still prompts and the resolved
password is the prompted one: an empty password can never be supplied on the
command line. -/
theorem empty_password_prompts (opt : Option Bytes) (prompted : Bytes) :
    (passwordFalsy opt = true ↔ opt = none ∨ opt = some []) ∧
    resolvePassword (some []) prompted = prompted ∧
    (passwordFalsy opt = true → resolvePassword opt prompted = prompted) := by
  refine ⟨?_, by simp [resolvePassword, passwordFalsy],
    fun h => by simp [resolvePassword, h]⟩
  cases opt with
  | none => simp [passwordFalsy]
  | some s => cases s <;> simp [passwordFalsy]

/-- C10 (witness): `-p ''` resolves to the prompted password. -/
theorem empty_password_prompts_witness :
    passwordFalsy (some []) = true ∧
    resolvePassword (some []) [0x61] = [0x61] :=
  ⟨by decide, (empty_password_prompts (some []) [0x61]).2.2 (by decide)⟩

/-- C1: a row destructured in the CSV order
(author, title, publisher, isbn10, since, grade, read, isbn13, isbn10f,
isbn13f, bookid) yields the parameter tuple of `cur.execute` in exactly the
order of the column list of `insert_sql`, each field landing in the column of
the same name. -/
theorem insert_params_match_columns
    (a t p i10 s g rd i13 i10f i13f bid : Bytes) (da dt dp : List Nat)
    (d m y : Int) (dte : Date)
    (ha : decodeUtf8 a = some da) (ht : decodeUtf8 t = some dt)
    (hp : decodeUtf8 p = some dp)
    (hs : parseDateParts s = some (d, m, y)) (hd : mkDate y m d = some dte) :
    processRow [a, t, p, i10, s, g, rd, i13, i10f, i13f, bid] =
      RowResult.ok
        (insertColumns.map
          (columnParam da dt dp i10 g rd i13 i10f i13f bid dte)) := by
  simp [processRow, destructure, hs, ha, ht, hp, hd, insertColumns, columnParam]

/-- C1 (witness): the fully well-formed `sampleRow` produces exactly the
column-aligned tuple. -/
theorem insert_params_match_columns_witness :
    processRow sampleRow =
      RowResult.ok
        (insertColumns.map
          (columnParam [65] [66] [67] goodIsbn10 [51] [55] goodIsbn13
            goodIsbn10f goodIsbn13f [66, 75, 49] ⟨2004, 3, 5⟩)) :=
  insert_params_match_columns [65] [66] [67] goodIsbn10 sampleSince [51] [55]
    goodIsbn13 goodIsbn10f goodIsbn13f [66, 75, 49] [65] [66] [67] 5 3 2004
    ⟨2004, 3, 5⟩ (by decide) (by decide) (by decide) (by decide) (by decide)

/-- C2: in any row whose insert executes, each identifier field of required
length 10/13/13/17 passes through unchanged when its length matches and is
replaced by `None` otherwise; and the outcome classification of a row
(insert, debugger, abort) never depends on the identifier fields, so a length
mismatch cannot raise. -/
theorem isbn_length_normalization
    (a t p i10 s g rd i13 i10f i13f bid i10' i13' i10f' i13f' : Bytes)
    (params : List Value)
    (hok : processRow [a, t, p, i10, s, g, rd, i13, i10f, i13f, bid] =
      RowResult.ok params) :
    params[3]? = some (if i10.length = 10 then Value.raw i10 else Value.null) ∧
    params[4]? = some (if i10f.length = 13 then Value.raw i10f else Value.null) ∧
    params[5]? = some (if i13.length = 13 then Value.raw i13 else Value.null) ∧
    params[6]? = some (if i13f.length = 17 then Value.raw i13f else Value.null) ∧
    kind (processRow [a, t, p, i10', s, g, rd, i13', i10f', i13f', bid]) =
      kind (processRow [a, t, p, i10, s, g, rd, i13, i10f, i13f, bid]) := by
  simp only [processRow, destructure] at hok ⊢
  cases hps : parseDateParts s with
  | none => simp [hps] at hok
  | some tri =>
    obtain ⟨d, m, y⟩ := tri
    simp only [hps] at hok
    cases hda : decodeUtf8 a with
    | none => simp [hda] at hok
    | some da =>
    cases hdt : decodeUtf8 t with
    | none => simp [hda, hdt] at hok
    | some dt =>
    cases hdp : decodeUtf8 p with
    | none => simp [hda, hdt, hdp] at hok
    | some dp =>
    cases hdd : mkDate y m d with
    | none => simp [hda, hdt, hdp, hdd] at hok
    | some dte =>
    simp only [hda, hdt, hdp, hdd, RowResult.ok.injEq] at hok
    subst hok
    refine ⟨?_, ?_, ?_, ?_, by simp [kind, hda, hdt, hdp, hdd]⟩ <;>
      simp [lenNorm, ite_not]

/-- The parameter tuple produced for a row whose isbn10 has only 9 bytes. -/
def shortIsbn10Params : List Value :=
  [Value.text [65], Value.text [66], Value.text [67], Value.null,
   Value.raw goodIsbn10f, Value.raw goodIsbn13, Value.raw goodIsbn13f,
   Value.raw [66, 75, 49], Value.date ⟨2004, 3, 5⟩, Value.raw [51],
   Value.raw [55]]

/-- C2 (witness): a row with a 9-byte isbn10 still inserts, with `None` in
the isbn10 position and the well-formed isbn13 passed through. -/
theorem isbn_length_normalization_witness :
    shortIsbn10Params[3]? = some Value.null ∧
    shortIsbn10Params[5]? = some (Value.raw goodIsbn13) := by
  have h := isbn_length_normalization [65] [66] [67]
    [49, 50, 51, 52, 53, 54, 55, 56, 57] sampleSince [51] [55] goodIsbn13
    goodIsbn10f goodIsbn13f [66, 75, 49] goodIsbn10 goodIsbn13 goodIsbn10f
    goodIsbn13f shortIsbn10Params (by decide)
  exact ⟨h.1.trans (by decide), h.2.2.1.trans (by decide)⟩

/-- C4 (counterexample): a row whose author field is the byte `0xFF` (not
valid UTF-8) does not abort the run: the `UnicodeDecodeError` is raised
inside the per-row `try` and caught by `except Exception`, landing in the
debugger. -/
theorem decode_error_not_abort_cex :
    processRow badUtf8Row = RowResult.pdb ∧
    isAbort (processRow badUtf8Row) = false := by
  decide

/-- C4 (amended): a failure to decode any of the three text fields of a row
with a parseable `available_since` is caught by the per-row `except Exception`
handler (dropping into `pdb`), not propagated as an abort. -/
theorem decode_error_hits_row_handler
    (a t p i10 s g rd i13 i10f i13f bid : Bytes) (d m y : Int)
    (hs : parseDateParts s = some (d, m, y))
    (ha : decodeUtf8 a = none ∨ decodeUtf8 t = none ∨ decodeUtf8 p = none) :
    processRow [a, t, p, i10, s, g, rd, i13, i10f, i13f, bid] =
      RowResult.pdb := by
  simp only [processRow, destructure, hs]
  cases hda : decodeUtf8 a <;> cases hdt : decodeUtf8 t <;>
    cases hdp : decodeUtf8 p <;> cases hdd : mkDate y m d <;>
    simp_all

/-- C4 (witness): concrete instance at `badUtf8Row`, whose author byte `0xFF`
does not decode. -/
theorem decode_error_hits_row_handler_witness :
    decodeUtf8 [0xFF] = none ∧ processRow badUtf8Row = RowResult.pdb :=
  ⟨by decide,
    decode_error_hits_row_handler [0xFF] [66] [67] goodIsbn10 sampleSince [51]
      [55] goodIsbn13 goodIsbn10f goodIsbn13f [66, 75, 49] 5 3 2004
      (by decide) (Or.inl (by decide))⟩

/-- C7 (counterexample): `"32.1.2004"` splits into three integer components
but is not a valid calendar date, so it is malformed in the claim's sense;
yet the row does not abort — `datetime.date` raises inside the per-row `try`
and the handler catches it. -/
theorem invalid_date_not_abort_cex :
    processRow badDayRow = RowResult.pdb ∧
    isAbort (processRow badDayRow) = false := by
  decide

/-- C7 (amended): an `available_since` value that does not split into three
integer components raises `ValueError` outside the `try` and aborts the run;
a value with three integer components that do not form a valid date instead
raises inside the `try` and is caught by the per-row handler. -/
theorem since_malformed_behavior
    (a t p i10 s g rd i13 i10f i13f bid : Bytes) :
    (parseDateParts s = none →
      processRow [a, t, p, i10, s, g, rd, i13, i10f, i13f, bid] =
        RowResult.abort PyError.valueError) ∧
    (∀ d m y : Int, parseDateParts s = some (d, m, y) → mkDate y m d = none →
      processRow [a, t, p, i10, s, g, rd, i13, i10f, i13f, bid] =
        RowResult.pdb) := by
  constructor
  · intro hs
    simp [processRow, destructure, hs]
  · intro d m y hs hd
    simp only [processRow, destructure, hs]
    cases hda : decodeUtf8 a <;> cases hdt : decodeUtf8 t <;>
      cases hdp : decodeUtf8 p <;> simp_all

/-- A digit byte is not one of the whitespace bytes `int()` strips. -/
lemma digit_not_space {b : Nat} (h : isDigit b = true) : isPySpace b = false := by
  simp [isDigit] at h
  simp [isPySpace]
  omega

/-- Whitespace-stripping is the identity on an all-digit string. -/
lemma dropWhile_space_of_digits {s : Bytes} (h : s.all isDigit = true) :
    s.dropWhile isPySpace = s := by
  cases s with
  | nil => rfl
  | cons b bs =>
    have hb : isDigit b = true := by
      simp [List.all_cons] at h
      exact h.1
    simp [List.dropWhile_cons, digit_not_space hb]

/-- An all-digit string contains no period byte. -/
lemma digits_no_dot {s : Bytes} (h : s.all isDigit = true) :
    (0x2E : Nat) ∉ s := by
  intro hm
  have hd := List.all_eq_true.mp h _ hm
  simp [isDigit] at hd

/-- `int()` on a nonempty all-digit string returns its decimal value. -/
lemma parsePyInt_digits {s : Bytes} (hne : s ≠ []) (h : s.all isDigit = true) :
    parsePyInt s = some ((digitsVal s : Nat) : Int) := by
  have h2 : s.reverse.all isDigit = true := by
    rw [List.all_reverse]
    exact h
  rw [parsePyInt, dropWhile_space_of_digits h, dropWhile_space_of_digits h2,
      List.reverse_reverse]
  cases s with
  | nil => exact absurd rfl hne
  | cons b bs =>
    have hb : isDigit b = true := by
      simp [List.all_cons] at h
      exact h.1
    have hb45 : ¬ b = 0x2D := by simp [isDigit] at hb; omega
    have hb43 : ¬ b = 0x2B := by simp [isDigit] at hb; omega
    simp [parsePyIntCore, hb45, hb43, h]

/-- Splitting a string that does not contain the separator yields the string
as the single piece. -/
lemma splitOnByte_not_mem {sep : Nat} {s : Bytes} (h : sep ∉ s) :
    splitOnByte sep s = [s] := by
  induction s with
  | nil => rfl
  | cons b bs ih =>
    have hb : ¬ b = sep := fun hbeq => h (by simp [hbeq])
    have hbs : sep ∉ bs := fun hm => h (List.mem_cons_of_mem b hm)
    simp [splitOnByte, hb, ih hbs]

/-- Splitting peels off a separator-free prefix as the first piece. -/
lemma splitOnByte_sep_append {sep : Nat} {s1 : Bytes} (rest : Bytes)
    (h : sep ∉ s1) :
    splitOnByte sep (s1 ++ sep :: rest) = s1 :: splitOnByte sep rest := by
  induction s1 with
  | nil => simp [splitOnByte]
  | cons b bs ih =>
    have hb : ¬ b = sep := fun hbeq => h (by simp [hbeq])
    have hbs : sep ∉ bs := fun hm => h (List.mem_cons_of_mem b hm)
    simp [splitOnByte, hb, ih hbs]

/-- `"D.M.YYYY"` with nonempty all-digit components parses to the integer
triple (day, month, year). -/
lemma parseDateParts_of_three {s1 s2 s3 : Bytes}
    (h1 : s1 ≠ []) (h1d : s1.all isDigit = true)
    (h2 : s2 ≠ []) (h2d : s2.all isDigit = true)
    (h3 : s3 ≠ []) (h3d : s3.all isDigit = true) :
    parseDateParts (s1 ++ 0x2E :: (s2 ++ 0x2E :: s3)) =
      some (((digitsVal s1 : Nat) : Int), ((digitsVal s2 : Nat) : Int),
        ((digitsVal s3 : Nat) : Int)) := by
  rw [parseDateParts, splitOnByte_sep_append _ (digits_no_dot h1d),
      splitOnByte_sep_append _ (digits_no_dot h2d),
      splitOnByte_not_mem (digits_no_dot h3d)]
  simp [List.mapM, List.mapM.loop, parsePyInt_digits h1 h1d,
    parsePyInt_digits h2 h2d, parsePyInt_digits h3 h3d]

/-- C6: an `available_since` of the form `"D.M.YYYY"` — three period-separated
nonempty digit components whose values form a valid calendar date — makes the
transformer put exactly the date (year, month, day) of those components into
the `available_since` position of the insertion tuple. -/
theorem valid_date_parsed
    (a t p i10 g rd i13 i10f i13f bid s1 s2 s3 : Bytes)
    (da dt dp : List Nat) (dte : Date)
    (h1 : s1 ≠ []) (h1d : s1.all isDigit = true)
    (h2 : s2 ≠ []) (h2d : s2.all isDigit = true)
    (h3 : s3 ≠ []) (h3d : s3.all isDigit = true)
    (ha : decodeUtf8 a = some da) (ht : decodeUtf8 t = some dt)
    (hp : decodeUtf8 p = some dp)
    (hd : mkDate (digitsVal s3) (digitsVal s2) (digitsVal s1) = some dte) :
    processRow [a, t, p, i10, s1 ++ 0x2E :: (s2 ++ 0x2E :: s3), g, rd, i13,
        i10f, i13f, bid] =
      RowResult.ok [Value.text da, Value.text dt, Value.text dp,
        lenNorm 10 i10, lenNorm 13 i10f, lenNorm 13 i13, lenNorm 17 i13f,
        Value.raw bid, Value.date dte, Value.raw g, Value.raw rd] ∧
    dte.year = (digitsVal s3 : Int) ∧ dte.month = (digitsVal s2 : Int) ∧
    dte.day = (digitsVal s1 : Int) := by
  have hparts := parseDateParts_of_three h1 h1d h2 h2d h3 h3d
  refine ⟨by simp [processRow, destructure, hparts, ha, ht, hp, hd], ?_⟩
  rw [mkDate] at hd
  split at hd
  · cases hd
    simp
  · cases hd

/-- C6 (witness): `"5.3.2004"` in `sampleRow` produces the date 2004-03-05 in
the `available_since` position. -/
theorem valid_date_parsed_witness :
    processRow sampleRow =
      RowResult.ok [Value.text [65], Value.text [66], Value.text [67],
        lenNorm 10 goodIsbn10, lenNorm 13 goodIsbn10f, lenNorm 13 goodIsbn13,
        lenNorm 17 goodIsbn13f, Value.raw [66, 75, 49],
        Value.date ⟨2004, 3, 5⟩, Value.raw [51], Value.raw [55]] := by
  have h := valid_date_parsed [65] [66] [67] goodIsbn10 [51] [55] goodIsbn13
    goodIsbn10f goodIsbn13f [66, 75, 49] [0x35] [0x33] [0x32, 0x30, 0x30, 0x34]
    [65] [66] [67] ⟨2004, 3, 5⟩ (by decide) (by decide) (by decide) (by decide)
    (by decide) (by decide) (by decide) (by decide) (by decide) (by decide)
  exact h.1

/-- The row loop starting from any index: if no row aborts, the trace has
exactly one commit and it is the last event. -/
lemma runRows_commit (idx : Nat) (rows : List (List Bytes))
    (h : ∀ r ∈ rows, isAbort (processRow r) = false) :
    (runRows idx rows).count Event.commit = 1 ∧
    (runRows idx rows).getLast? = some Event.commit := by
  induction rows generalizing idx with
  | nil => simp [runRows]
  | cons r rs ih =>
    have hr := h r (List.mem_cons_self r rs)
    have hrs : ∀ x ∈ rs, isAbort (processRow x) = false :=
      fun x hx => h x (List.mem_cons_of_mem r hx)
    obtain ⟨ih1, ih2⟩ := ih (idx + 1) hrs
    have hne : runRows (idx + 1) rs ≠ [] := by
      intro hnil
      rw [hnil] at ih2
      exact Option.noConfusion ih2
    have key : ∀ e : Event, e ≠ Event.commit →
        ((if idx % 100 = 0 then [Event.dot] else []) ++
            e :: runRows (idx + 1) rs).count Event.commit = 1 ∧
        ((if idx % 100 = 0 then [Event.dot] else []) ++
            e :: runRows (idx + 1) rs).getLast? = some Event.commit := by
      intro e he
      constructor
      · rw [List.count_append, List.count_cons, ih1]
        split <;> simp [he]
      · obtain ⟨x, xs, hxx⟩ : ∃ x xs, runRows (idx + 1) rs = x :: xs := by
          cases hrr : runRows (idx + 1) rs with
          | nil => exact absurd hrr hne
          | cons x xs => exact ⟨x, xs, rfl⟩
        rw [List.getLast?_append_of_ne_nil _ (by simp), hxx,
          List.getLast?_cons_cons, ← hxx, ih2]
    rw [runRows]
    cases hp : processRow r with
    | abort e => rw [hp] at hr; simp [isAbort] at hr
    | ok ps => exact key (Event.insert ps) (by simp)
    | pdb => exact key Event.pdbStop (by simp)

/-- C8: in a run that reaches the end of the row stream (no row aborts), the
commit is executed exactly once, as the very last event — after every insert
of the run, and never before the end of the stream. -/
theorem commit_once_at_end (rows : List (List Bytes))
    (h : ∀ r ∈ rows, isAbort (processRow r) = false) :
    (runRows 0 rows).count Event.commit = 1 ∧
    (runRows 0 rows).getLast? = some Event.commit :=
  runRows_commit 0 rows h

/-- C8 (witness): the one-row stream `[sampleRow]` commits exactly once, at
the end. -/
theorem commit_once_at_end_witness :
    (∀ r ∈ [sampleRow], isAbort (processRow r) = false) ∧
    (runRows 0 [sampleRow]).count Event.commit = 1 ∧
    (runRows 0 [sampleRow]).getLast? = some Event.commit :=
  ⟨by decide, commit_once_at_end [sampleRow] (by decide)⟩

/-- C7 (witness): `"2004-03-05"` (no periods) aborts the run, while
`"32.1.2004"` (day out of range) lands in the debugger. -/
theorem since_malformed_behavior_witness :
    processRow [[65], [66], [67], goodIsbn10, dashedSince, [51], [55],
        goodIsbn13, goodIsbn10f, goodIsbn13f, [66, 75, 49]] =
      RowResult.abort PyError.valueError ∧
    processRow badDayRow = RowResult.pdb :=
  ⟨(since_malformed_behavior [65] [66] [67] goodIsbn10 [51] [55] goodIsbn13
      goodIsbn10f goodIsbn13f [66, 75, 49] (s := dashedSince)).1 (by decide),
    (since_malformed_behavior [65] [66] [67] goodIsbn10 [51] [55] goodIsbn13
      goodIsbn10f goodIsbn13f [66, 75, 49] (s := badDaySince)).2 32 1 2004
      (by decide) (by decide)⟩

end Antolin
